import Mathlib

/-!
# Verification of `simple_vector.h` (cpp-simple-vector)

Shallow embedding of the `SimpleVector<Type>` container from
`src/simple-vector/simple_vector.h`, together with proofs and refutations of
the specification's claims about it.

Modelling conventions:
* Machine `size_t` values are `Nat` (no operation here can overflow in a way
  the claims depend on).
* The raw-buffer collaborator `ArrayPtr<Type>` is declared in `array_ptr.h`,
  which is not part of the sources. Modelled from the spec: an `ArrayPtr` is
  exclusive ownership of a contiguous block of slots; allocating `n` slots
  yields `n` default-constructed slots; `swap` exchanges ownership; the
  move constructor steals the block and leaves the source empty. We represent
  the owned block as a `List α` whose length is the number of allocated slots.
* An in-place store `array_[i] = v` is modelled by `List.set`, which is the
  identity exactly when the C++ store would be out of the allocated bounds;
  out-of-bounds accesses are additionally tracked by explicit bound
  predicates where a claim is about them.
-/

/-- State of a `SimpleVector<Type>`: the owned buffer (`data`, one entry per
allocated slot), the logical size `size_`, and the reported capacity
`capacity_`.  In a correct state `size_ ≤ capacity_ = data.length`, but the
code can break `capacity_ = data.length` (see the `Resize` theorems). -/
structure SimpleVector (α : Type) where
  data : List α
  size_ : Nat
  capacity_ : Nat
deriving Repr, DecidableEq

namespace SimpleVector

variable {α : Type} [Inhabited α]

/-- `GetSize()` — returns `size_`. -/
def GetSize (s : SimpleVector α) : Nat := s.size_

/-- `GetCapacity()` — returns `capacity_`. -/
def GetCapacity (s : SimpleVector α) : Nat := s.capacity_

/-- `IsEmpty()` — `size_ == 0`. -/
def IsEmpty (s : SimpleVector α) : Bool := s.size_ == 0

/-- The logical sequence of the container: the elements in `[begin(), end())`,
i.e. the first `size_` slots of the buffer. -/
def logical (s : SimpleVector α) : List α := s.data.take s.size_

/-- Well-formedness invariant the data model intends: the reported capacity
is the number of allocated slots and bounds the size. -/
def WF (s : SimpleVector α) : Prop :=
  s.size_ ≤ s.capacity_ ∧ s.data.length = s.capacity_

/-- Default constructor `SimpleVector()`: size 0, capacity 0, no allocation. -/
def empty : SimpleVector α := ⟨[], 0, 0⟩

/-- `SimpleVector(size_t size)`: allocates `size` slots, fills `[begin, end)`
with `Type()`; size = capacity = `size`. -/
def ofSize (n : Nat) : SimpleVector α :=
  ⟨List.replicate n default, n, n⟩

/-- `SimpleVector(size_t size, const Type& value)`: allocates `size` slots and
fills all of them with `value`. -/
def ofSizeValue (n : Nat) (v : α) : SimpleVector α :=
  ⟨List.replicate n v, n, n⟩

/-- `SimpleVector(ReserveProxyObj)`: allocates `capacity_to_reserve_` slots,
size 0. -/
def ofReserve (n : Nat) : SimpleVector α :=
  ⟨List.replicate n default, 0, n⟩

/-- `SimpleVector(std::initializer_list<Type>)`: allocates `init.size()` slots
and moves the list elements in; size = capacity = list length. -/
def ofList (l : List α) : SimpleVector α :=
  ⟨l, l.length, l.length⟩

/-- Copy constructor `SimpleVector(const SimpleVector&)`: allocates
`other.GetCapacity()` slots (default content) and copies
`[other.begin(), other.end())` into the front. -/
def copyOf (s : SimpleVector α) : SimpleVector α :=
  ⟨s.data.take s.size_ ++ List.replicate (s.capacity_ - s.size_) default,
   s.size_, s.capacity_⟩

/-- Move constructor `SimpleVector(SimpleVector&&)`: steals the buffer
(`ArrayPtr` move leaves the source without storage) and exchanges `size_`
and `capacity_` with 0.  Returns (constructed object, moved-from source). -/
def MoveConstruct (other : SimpleVector α) :
    SimpleVector α × SimpleVector α :=
  (⟨other.data, other.size_, other.capacity_⟩, ⟨[], 0, 0⟩)

/-- Move assignment `operator=(SimpleVector&& rhs)`: the body is
`SimpleVector tmp(rhs); swap(tmp);`.  Inside the body `rhs` is an lvalue, so
`tmp` is COPY-constructed from `rhs`; the swap then installs the copy into
`*this` and the old contents die with `tmp`.  `rhs` itself is only read.
Returns (new value of `*this`, value of `rhs` afterwards). -/
def MoveAssign (_this rhs : SimpleVector α) :
    SimpleVector α × SimpleVector α :=
  (copyOf rhs, rhs)

/-- `PushBack(Type item)`: on `size_ == capacity_` grows to
`capacity_ == 0 ? 1 : capacity_ * 2`, moving `[begin, end)` into the fresh
buffer, then stores `item` at index `size_` and increments `size_`. -/
def PushBack (s : SimpleVector α) (item : α) : SimpleVector α :=
  if s.size_ = s.capacity_ then
    let nc := if s.capacity_ = 0 then 1 else s.capacity_ * 2
    let nd := s.data.take s.size_ ++
      List.replicate (nc - s.size_) (default : α)
    ⟨nd.set s.size_ item, s.size_ + 1, nc⟩
  else
    ⟨s.data.set s.size_ item, s.size_ + 1, s.capacity_⟩

/-- The store `array_[size_++] = item` performed by `PushBack` after any
growth: (index written, number of slots of the buffer written into). -/
def PushBackStore (s : SimpleVector α) : Nat × Nat :=
  if s.size_ = s.capacity_ then
    (s.size_, if s.capacity_ = 0 then 1 else s.capacity_ * 2)
  else
    (s.size_, s.data.length)

/-- `Insert(ConstIterator pos, Type value)` at index `p = pos - begin()`.
Growth branch: fresh buffer of `capacity_ == 0 ? 1 : capacity_ * 2` slots
receives `[0,p)`, then `value`, then `[p, size_)`.  Otherwise
`move_backward` shifts `[p, size_)` one slot right and `value` is stored at
`p`.  The returned iterator is `begin() + p`. -/
def Insert (s : SimpleVector α) (p : Nat) (v : α) : SimpleVector α :=
  if s.size_ = s.capacity_ then
    let nc := if s.capacity_ = 0 then 1 else s.capacity_ * 2
    ⟨s.data.take p ++ [v] ++ (s.data.drop p).take (s.size_ - p) ++
      List.replicate (nc - s.size_ - 1) (default : α),
     s.size_ + 1, nc⟩
  else
    ⟨s.data.take p ++ [v] ++ (s.data.drop p).take (s.size_ - p) ++
      s.data.drop (s.size_ + 1),
     s.size_ + 1, s.capacity_⟩

/-- `PopBack()`: decrements `size_` (asserts `size_ > 0`). -/
def PopBack (s : SimpleVector α) : SimpleVector α :=
  ⟨s.data, s.size_ - 1, s.capacity_⟩

/-- `Erase(ConstIterator pos)` at index `p = pos - begin()`: moves
`[p+1, size_)` onto `[p, size_-1)` and decrements `size_`; slots from
`size_-1` on keep their old content. -/
def Erase (s : SimpleVector α) (p : Nat) : SimpleVector α :=
  ⟨s.data.take p ++ (s.data.drop (p + 1)).take (s.size_ - p - 1) ++
    s.data.drop (s.size_ - 1),
   s.size_ - 1, s.capacity_⟩

/-- `Reserve(size_t new_capacity)`: when `new_capacity > capacity_`,
allocates `new_capacity` slots, moves `[begin, end)` in, and sets
`capacity_ = new_capacity`; otherwise a no-op. -/
def Reserve (s : SimpleVector α) (n : Nat) : SimpleVector α :=
  if n > s.capacity_ then
    ⟨s.data.take s.size_ ++ List.replicate (n - s.size_) (default : α),
     s.size_, n⟩
  else s

/-- `Clear()`: `size_ = 0`; buffer and capacity untouched. -/
def Clear (s : SimpleVector α) : SimpleVector α :=
  ⟨s.data, 0, s.capacity_⟩

/-- `Resize(size_t new_size)`.  When `new_size > capacity_` the code
allocates an `ArrayPtr` of `new_size` slots, moves `[begin, end)` in,
default-constructs slots `[size_, new_size)`, sets `size_ = new_size` and
`capacity_ = max(new_size, capacity_ * 2)` — note the allocation has
`new_size` slots, not `max(new_size, capacity_ * 2)`.  When
`size_ < new_size ≤ capacity_`, slots `[size_, new_size)` are
default-assigned in place.  Otherwise only `size_` changes. -/
def Resize (s : SimpleVector α) (n : Nat) : SimpleVector α :=
  if n > s.capacity_ then
    ⟨s.data.take s.size_ ++ List.replicate (n - s.size_) (default : α),
     n, max n (s.capacity_ * 2)⟩
  else if n > s.size_ then
    ⟨(s.data.take s.size_ ++ List.replicate (n - s.size_) (default : α)) ++
      s.data.drop n,
     n, s.capacity_⟩
  else
    ⟨s.data, n, s.capacity_⟩

/-- `At(size_t index)`: throws `std::out_of_range` when `index >= size_`,
otherwise returns `array_[index]`.  `At` performs no mutation. -/
def At (s : SimpleVector α) (i : Nat) : Except Unit α :=
  if s.size_ ≤ i then .error () else .ok (s.data.getD i default)

/-- `swap(SimpleVector&)`: exchanges buffers, sizes and capacities. -/
def Swap (a b : SimpleVector α) : SimpleVector α × SimpleVector α :=
  (b, a)

end SimpleVector

section Comparisons

variable {α : Type}

/-- `std::equal(l.begin(), l.end(), r.begin(), r.end())`: the two ranges have
equal length and elementwise-equal content. -/
def eqRange [DecidableEq α] : List α → List α → Bool
  | [], [] => true
  | a :: as, b :: bs => if a = b then eqRange as bs else false
  | _, _ => false

/-- `std::lexicographical_compare(l.begin(), l.end(), r.begin(), r.end())`
with the default `operator<` comparison. -/
def lexLt [LT α] [DecidableRel ((· < ·) : α → α → Prop)] :
    List α → List α → Bool
  | _, [] => false
  | [], _ :: _ => true
  | a :: as, b :: bs =>
    if a < b then true else if b < a then false else lexLt as bs

variable [LinearOrder α]

/-- `operator==`: `std::equal` over the two logical ranges. -/
def vecEq (l r : SimpleVector α) : Bool := eqRange l.logical r.logical

/-- `operator!=`: `!(lhs == rhs)`. -/
def vecNe (l r : SimpleVector α) : Bool := !vecEq l r

/-- `operator<`: `std::lexicographical_compare` over the logical ranges. -/
def vecLt (l r : SimpleVector α) : Bool := lexLt l.logical r.logical

/-- `operator<=`: `lhs < rhs || lhs == rhs`. -/
def vecLe (l r : SimpleVector α) : Bool := vecLt l r || vecEq l r

/-- `operator>`: `rhs < lhs`. -/
def vecGt (l r : SimpleVector α) : Bool := vecLt r l

/-- `operator>=`: `lhs > rhs || lhs == rhs`. -/
def vecGe (l r : SimpleVector α) : Bool := vecGt l r || vecEq l r

end Comparisons

/-! ## Helper lemmas -/

lemma eqRange_iff {α : Type} [DecidableEq α] (l r : List α) :
    eqRange l r = true ↔ l = r := by
  induction l generalizing r with
  | nil => cases r <;> simp [eqRange]
  | cons a as ih =>
    cases r with
    | nil => simp [eqRange]
    | cons b bs =>
      by_cases hab : a = b <;> simp [eqRange, hab, ih]

lemma lexLt_iff {α : Type} [LinearOrder α] (l r : List α) :
    lexLt l r = true ↔ List.Lex (· < ·) l r := by
  induction l generalizing r with
  | nil =>
    cases r with
    | nil => simp [lexLt]
    | cons b bs => simpa [lexLt] using List.Lex.nil
  | cons a as ih =>
    cases r with
    | nil => simp [lexLt]
    | cons b bs =>
      rcases lt_trichotomy a b with hlt | heq | hgt
      · simpa [lexLt, hlt] using List.Lex.rel hlt
      · subst heq
        simp only [lexLt, lt_irrefl, if_false]
        rw [ih]
        exact (List.Lex.cons_iff).symm
      · have hnab : ¬ a < b := not_lt_of_gt hgt
        simp only [lexLt, hnab, if_false, hgt, if_true]
        constructor
        · intro h; exact absurd h (by simp)
        · intro h
          cases h with
          | cons h => exact absurd rfl (ne_of_gt hgt)
          | rel h => exact absurd h hnab

/-! ## Claim theorems -/

/-- C1: the claim that `GetCapacity()` always equals the number of allocated
slots fails.  After `SimpleVector<int> v(3); v.Resize(4);` the buffer
allocated by `Resize` has 4 slots, but `capacity_` was set to
`max(4, 3*2) = 6`, so `GetCapacity()` reports 6 slots while only 4 exist. -/
theorem C1_capacity_not_allocated :
    ((SimpleVector.ofSize 3 : SimpleVector Nat).Resize 4).GetCapacity = 6 ∧
    ((SimpleVector.ofSize 3 : SimpleVector Nat).Resize 4).data.length = 4 := by
  constructor <;> rfl

/-- C2: the claim that `PushBack` writes only below the allocated slot count
fails.  After `SimpleVector<int> v(3); v.Resize(4);` the state has
`size_ = 4`, `capacity_ = 6`, but a 4-slot buffer; the next `PushBack` sees
`size_ != capacity_`, takes the no-growth branch, and stores to index 4 of
the 4-slot buffer — not strictly below the allocated slot count. -/
theorem C2_pushBack_store_out_of_bounds :
    ¬ (((SimpleVector.ofSize 3 : SimpleVector Nat).Resize 4).PushBackStore.1 <
       ((SimpleVector.ofSize 3 : SimpleVector Nat).Resize 4).PushBackStore.2) := by
  decide

/-- C3: the claim that move-assignment empties the source fails.  With
`a = {5}` and `b = {}`, after `b = std::move(a)` the source `a` still has
size 1 and capacity 1 (the assignment copy-constructs its temporary from
`rhs`, which binds as an lvalue, so nothing is moved out of `a`). -/
theorem C3_move_assign_source_not_emptied :
    ((SimpleVector.MoveAssign (SimpleVector.ofList ([] : List Nat))
        (SimpleVector.ofList [5])).2.GetSize = 1 ∧
     (SimpleVector.MoveAssign (SimpleVector.ofList ([] : List Nat))
        (SimpleVector.ofList [5])).2.GetCapacity = 1) ∧
    (SimpleVector.MoveAssign (SimpleVector.ofList ([] : List Nat))
        (SimpleVector.ofList [5])).1.logical = [5] := by
  constructor
  · constructor <;> rfl
  · rfl

/-- C4: the claim that `Resize(new_size)` with `new_size > capacity`
reallocates to capacity `max(new_size, capacity*2)` fails on the allocation
itself: `SimpleVector<int> v(3); v.Resize(4);` allocates a buffer of
`new_size = 4` slots, not `max(4, 3*2) = 6`, even though the other parts of
the claim (elements moved in order, new slots default-constructed,
`GetSize() == new_size`) do hold at this input. -/
theorem C4_resize_allocation_mismatch :
    ((SimpleVector.ofSize 3 : SimpleVector Nat).Resize 4).data.length ≠
      max 4 (3 * 2) ∧
    ((SimpleVector.ofSize 3 : SimpleVector Nat).Resize 4).GetSize = 4 ∧
    ((SimpleVector.ofSize 3 : SimpleVector Nat).Resize 4).logical =
      [0, 0, 0, 0] := by
  refine ⟨by decide, rfl, rfl⟩

/-- C6: move construction gives the new container exactly the source's
buffer, size and capacity, and leaves the source with size 0, capacity 0
and no storage. -/
theorem C6_move_construct {α : Type} [Inhabited α] (a : SimpleVector α) :
    (a.MoveConstruct.1.data = a.data ∧
     a.MoveConstruct.1.GetSize = a.GetSize ∧
     a.MoveConstruct.1.GetCapacity = a.GetCapacity ∧
     a.MoveConstruct.1.logical = a.logical) ∧
    (a.MoveConstruct.2.GetSize = 0 ∧
     a.MoveConstruct.2.GetCapacity = 0 ∧
     a.MoveConstruct.2.data = []) :=
  ⟨⟨rfl, rfl, rfl, rfl⟩, ⟨rfl, rfl, rfl⟩⟩

/-- C7: `At(i)` raises the out-of-range error iff `i >= GetSize()`, and for
`i < GetSize()` it returns the element at position `i` of the logical
sequence.  `At` reads `array_[index]` only and performs no mutation, so the
container is unchanged by construction. -/
theorem C7_at_checked {α : Type} [Inhabited α] (s : SimpleVector α) (i : Nat) :
    (s.At i = Except.error () ↔ s.GetSize ≤ i) ∧
    (i < s.GetSize → s.At i = Except.ok (s.logical.getD i default)) := by
  unfold SimpleVector.At SimpleVector.GetSize SimpleVector.logical
  by_cases h : s.size_ ≤ i
  · simp [h]
  · have hi : i < s.size_ := Nat.lt_of_not_le h
    simp only [h, if_false, true_implies]
    constructor
    · simp
    · intro _
      have : (s.data.take s.size_).getD i default = s.data.getD i default := by
        simp [List.getD, List.getElem?_take, hi]
      rw [this]

/-- C7 witness: instantiating the theorem at the container `{4, 5}` and the
in-range index 1 and the out-of-range index 2. -/
theorem C7_at_checked_witness :
    ((SimpleVector.ofList [4, 5] : SimpleVector Nat).At 2 = Except.error () ↔
      (SimpleVector.ofList [4, 5] : SimpleVector Nat).GetSize ≤ 2) ∧
    (1 < (SimpleVector.ofList [4, 5] : SimpleVector Nat).GetSize →
      (SimpleVector.ofList [4, 5] : SimpleVector Nat).At 1 =
        Except.ok ((SimpleVector.ofList [4, 5] :
          SimpleVector Nat).logical.getD 1 default)) :=
  ⟨(C7_at_checked (SimpleVector.ofList [4, 5]) 2).1,
   (C7_at_checked (SimpleVector.ofList [4, 5]) 1).2⟩

/-- C10: self-move-assignment preserves the logical sequence, size and
capacity: `a = std::move(a)` copy-constructs the temporary from `a` while
`a` is still intact, then swaps the copy into `a`. -/
theorem C10_self_move_assign {α : Type} [Inhabited α] (s : SimpleVector α)
    (h : s.size_ ≤ s.data.length) :
    (SimpleVector.MoveAssign s s).1.logical = s.logical ∧
    (SimpleVector.MoveAssign s s).1.GetSize = s.GetSize ∧
    (SimpleVector.MoveAssign s s).1.GetCapacity = s.GetCapacity := by
  refine ⟨?_, rfl, rfl⟩
  unfold SimpleVector.MoveAssign SimpleVector.copyOf SimpleVector.logical
  simp only
  rw [List.take_append_of_le_length (by simp [h]), List.take_take]
  simp

/-- C10 witness: instantiating the theorem at the container `{7, 8, 9}`. -/
theorem C10_self_move_assign_witness :
    (SimpleVector.ofList [7, 8, 9] : SimpleVector Nat).size_ ≤
      (SimpleVector.ofList [7, 8, 9] : SimpleVector Nat).data.length ∧
    (SimpleVector.MoveAssign (SimpleVector.ofList [7, 8, 9] : SimpleVector Nat)
        (SimpleVector.ofList [7, 8, 9])).1.logical =
      (SimpleVector.ofList [7, 8, 9] : SimpleVector Nat).logical :=
  ⟨by decide,
   (C10_self_move_assign (SimpleVector.ofList [7, 8, 9]) (by decide)).1⟩

/-- C5: from any well-formed full container (`size_ == capacity_`, buffer of
exactly `capacity_` slots), one `PushBack` yields capacity exactly
`max(1, 2*C)` and logical sequence = old sequence followed by the new
element. -/
theorem C5_pushBack_growth_law {α : Type} [Inhabited α]
    (s : SimpleVector α) (x : α)
    (hfull : s.size_ = s.capacity_) (halloc : s.data.length = s.capacity_) :
    (s.PushBack x).GetCapacity = max 1 (2 * s.GetCapacity) ∧
    (s.PushBack x).GetSize = s.GetSize + 1 ∧
    (s.PushBack x).logical = s.logical ++ [x] := by
  obtain ⟨d, n, c⟩ := s
  simp only at hfull halloc
  subst hfull
  have htake : d.take n = d := by rw [← halloc, List.take_length]
  have hnc : (if n = 0 then 1 else n * 2) = max 1 (2 * n) := by
    rcases Nat.eq_zero_or_pos n with h | h
    · simp [h]
    · have hne : n ≠ 0 := Nat.pos_iff_ne_zero.mp h
      simp only [hne, if_false]
      omega
  have hrep : (if n = 0 then 1 else n * 2) - n =
      ((if n = 0 then 1 else n * 2) - n - 1) + 1 := by
    rcases Nat.eq_zero_or_pos n with h | h
    · subst h; simp
    · have hne : n ≠ 0 := Nat.pos_iff_ne_zero.mp h
      simp only [hne, if_false]
      omega
  simp only [SimpleVector.PushBack, SimpleVector.GetCapacity,
    SimpleVector.GetSize, SimpleVector.logical, eq_self_iff_true, if_true]
  refine ⟨hnc, trivial, ?_⟩
  rw [htake, hrep, List.replicate_succ]
  rw [List.set_append_right _ _ (le_of_eq halloc)]
  simp only [halloc, Nat.sub_self, List.set_cons_zero]
  rw [List.take_append_eq_append_take, List.take_of_length_le (by omega)]
  simp [halloc]

/-- C5 witness: pushing 7 onto the full container `{5}` (size 1, capacity 1)
gives capacity `max(1, 2*1) = 2` and sequence `[5, 7]`. -/
theorem C5_pushBack_growth_law_witness :
    ((SimpleVector.ofList [5] : SimpleVector Nat).size_ =
        (SimpleVector.ofList [5] : SimpleVector Nat).capacity_ ∧
      (SimpleVector.ofList [5] : SimpleVector Nat).data.length =
        (SimpleVector.ofList [5] : SimpleVector Nat).capacity_) ∧
    ((SimpleVector.ofList [5] : SimpleVector Nat).PushBack 7).GetCapacity =
        max 1 (2 * (SimpleVector.ofList [5] :
          SimpleVector Nat).GetCapacity) ∧
    ((SimpleVector.ofList [5] : SimpleVector Nat).PushBack 7).GetSize =
        (SimpleVector.ofList [5] : SimpleVector Nat).GetSize + 1 ∧
    ((SimpleVector.ofList [5] : SimpleVector Nat).PushBack 7).logical =
        (SimpleVector.ofList [5] : SimpleVector Nat).logical ++ [7] :=
  ⟨⟨by decide, by decide⟩,
   C5_pushBack_growth_law (SimpleVector.ofList [5]) 7 (by decide) (by decide)⟩

/-- Shape lemma for `Erase` right after `Insert`: erasing at index `p` of a
buffer `A ++ [v] ++ B ++ T` with logical size `n + 1`, where `A` is the
original prefix (`|A| = p`) and `B` the original suffix (`|B| = n - p`),
recovers the sequence `A ++ B`. -/
lemma erase_insert_shape {α : Type} [Inhabited α] (A B T : List α) (v : α)
    (p n cap : Nat) (hA : A.length = p) (hB : B.length = n - p)
    (hpn : p ≤ n) :
    (SimpleVector.Erase ⟨A ++ [v] ++ B ++ T, n + 1, cap⟩ p).logical =
      A ++ B := by
  unfold SimpleVector.Erase SimpleVector.logical
  simp only [Nat.add_sub_cancel]
  have e1 : A ++ [v] ++ B ++ T = A ++ ([v] ++ (B ++ T)) := by
    simp [List.append_assoc]
  have h1 : (A ++ ([v] ++ (B ++ T))).take p = A := by
    rw [← hA, List.take_left]
  have h2 : (A ++ ([v] ++ (B ++ T))).drop (p + 1) = B ++ T := by
    rw [List.drop_append_eq_append_drop, List.drop_eq_nil_of_le (by omega),
      hA]
    simp
  have h3 : (B ++ T).take (n + 1 - p - 1) = B := by
    have hnp : n + 1 - p - 1 = n - p := by omega
    rw [hnp, ← hB, List.take_left]
  rw [e1, h1, h2, h3]
  have hAB : (A ++ B).length = n := by
    rw [List.length_append, hA, hB]; omega
  rw [← List.append_assoc, List.take_append_eq_append_take,
    List.take_of_length_le (le_of_eq hAB)]
  simp [hAB]

/-- C8: for every well-formed container, position `p ≤ size` and value `v`,
applying `Erase` at the iterator returned by `Insert` (index `p`) restores
the original logical sequence. -/
theorem C8_insert_erase_identity {α : Type} [Inhabited α]
    (s : SimpleVector α) (p : Nat) (v : α)
    (hp : p ≤ s.GetSize) (hwf : s.WF) :
    ((s.Insert p v).Erase p).logical = s.logical := by
  obtain ⟨d, n, c⟩ := s
  obtain ⟨hnc, hlen⟩ := hwf
  simp only [SimpleVector.GetSize] at hp
  simp only at hp hnc hlen
  have hdn : n ≤ d.length := by omega
  have hA : (d.take p).length = p := by
    rw [List.length_take]; omega
  have hB : ((d.drop p).take (n - p)).length = n - p := by
    rw [List.length_take, List.length_drop]; omega
  have hlog : SimpleVector.logical ⟨d, n, c⟩ =
      d.take p ++ (d.drop p).take (n - p) := by
    unfold SimpleVector.logical
    simp only
    have hpn : p + (n - p) = n := by omega
    rw [← hpn, List.take_add]
    have hred : p + (n - p) - p = n - p := by omega
    rw [hred]
  rw [hlog]
  unfold SimpleVector.Insert
  by_cases hfull : n = c
  · rw [if_pos hfull]
    exact erase_insert_shape _ _ _ v p n _ hA hB hp
  · rw [if_neg hfull]
    exact erase_insert_shape _ _ _ v p n _ hA hB hp

/-- C8 witness: inserting 9 at position 1 of `{1, 2, 3}` and erasing at the
returned position restores `[1, 2, 3]`. -/
theorem C8_insert_erase_identity_witness :
    (1 ≤ (SimpleVector.ofList [1, 2, 3] : SimpleVector Nat).GetSize ∧
      (SimpleVector.ofList [1, 2, 3] : SimpleVector Nat).WF) ∧
    (((SimpleVector.ofList [1, 2, 3] : SimpleVector Nat).Insert 1 9).Erase
        1).logical =
      (SimpleVector.ofList [1, 2, 3] : SimpleVector Nat).logical :=
  ⟨⟨by decide, by constructor <;> decide⟩,
   C8_insert_erase_identity (SimpleVector.ofList [1, 2, 3]) 1 9 (by decide)
     (by constructor <;> decide)⟩

/-- Negated form of `eqRange_iff`. -/
lemma eqRange_eq_false_iff {α : Type} [DecidableEq α] (l r : List α) :
    eqRange l r = false ↔ ¬ l = r := by
  rw [Bool.eq_false_iff]
  exact not_congr (eqRange_iff l r)

/-- C9: the relational operators implement elementwise equality and the
standard lexicographic strict order (`List.Lex (· < ·)`, under which a
strict prefix compares less) on the logical ranges, with `!=` the negation
of `==`, `<=` exactly `<` or `==`, `>` the flip of `<`, and `>=` exactly
`>` or `==`. -/
theorem C9_relational_operators {α : Type} [Inhabited α] [LinearOrder α]
    (a b : SimpleVector α) :
    (vecEq a b = true ↔ a.logical = b.logical) ∧
    (vecNe a b = true ↔ ¬ a.logical = b.logical) ∧
    (vecLt a b = true ↔ List.Lex (· < ·) a.logical b.logical) ∧
    (vecLe a b = true ↔
      (List.Lex (· < ·) a.logical b.logical ∨ a.logical = b.logical)) ∧
    (vecGt a b = true ↔ List.Lex (· < ·) b.logical a.logical) ∧
    (vecGe a b = true ↔
      (List.Lex (· < ·) b.logical a.logical ∨ a.logical = b.logical)) := by
  simp only [vecNe, vecLe, vecGt, vecGe, vecEq, vecLt]
  simp [eqRange_iff, lexLt_iff, eqRange_eq_false_iff, Bool.not_eq_true]
